import Mathlib

/-!
Shallow embedding of the ernestio firewall-deleter-aws-connector core
(`event.go`, `main.go`): the Event data model, Validate, Process,
Error, Complete and the dispatcher `eventHandler`, together with a
structured model of the JSON wire format used by `json.Marshal` /
`json.Unmarshal` on this schema.
-/

/-- Structured JSON values: the abstraction of the byte payloads
exchanged on the bus (`encoding/json` values for this schema). -/
inductive Json where
  | null
  | bool (b : Bool)
  | num (n : Int)
  | str (s : String)
  | arr (xs : List Json)
  | obj (fields : List (String × Json))

/-- Raw inbound bytes: `none` stands for bytes that are not valid JSON
text at all, `some j` for bytes whose JSON value is `j`. -/
abbrev RawData := Option Json

/-- One firewall permission entry (`rule` in event.go). -/
structure rule where
  IP : String
  FromPort : Int
  ToPort : Int
  Protocol : String
deriving DecidableEq, Repr

/-- The ingress/egress rule sets (the anonymous struct inside Event). -/
structure SGRules where
  Ingress : List rule
  Egress : List rule
deriving DecidableEq, Repr

/-- Event stores the firewall delete data (event.go). -/
structure Event where
  ID : String
  DatacenterVPCID : String
  DatacenterRegion : String
  DatacenterAccessKey : String
  DatacenterAccessToken : String
  NetworkAWSID : String
  SecurityGroupAWSID : String
  SecurityGroupName : String
  SecurityGroupRules : SGRules
  ErrorMessage : String
deriving DecidableEq, Repr

/-- The Go zero value of Event (`var f Event` in eventHandler). -/
def zeroEvent : Event :=
  ⟨"", "", "", "", "", "", "", "", ⟨[], []⟩, ""⟩

/-- The ten validation error sentinels declared at the top of event.go. -/
inductive VErr where
  | datacenterIDInvalid
  | datacenterRegionInvalid
  | datacenterCredentialsInvalid
  | sgAWSIDInvalid
  | sgNameInvalid
  | sgRulesInvalid
  | sgRuleIPInvalid
  | sgRuleProtocolInvalid
  | sgRuleFromPortInvalid
  | sgRuleToPortInvalid
deriving DecidableEq, Repr

/-- The fixed message carried by each validation error sentinel. -/
def VErr.message : VErr → String
  | .datacenterIDInvalid => "Datacenter VPC ID invalid"
  | .datacenterRegionInvalid => "Datacenter Region invalid"
  | .datacenterCredentialsInvalid => "Datacenter credentials invalid"
  | .sgAWSIDInvalid => "Security Group aws id invalid"
  | .sgNameInvalid => "Security Group name invalid"
  | .sgRulesInvalid => "Security Group must contain rules"
  | .sgRuleIPInvalid => "Security Group rule ip invalid"
  | .sgRuleProtocolInvalid => "Security Group rule protocol invalid"
  | .sgRuleFromPortInvalid => "Security Group rule from port invalid"
  | .sgRuleToPortInvalid => "Security Group rule to port invalid"

/-- The per-rule loop body of Validate: both the ingress and the egress
loop in event.go run this identical check sequence over their list. -/
def validateRules : List rule → Option VErr
  | [] => none
  | r :: rs =>
    if r.IP = "" then some .sgRuleIPInvalid
    else if r.Protocol = "" then some .sgRuleProtocolInvalid
    else if r.FromPort < 1 ∨ r.FromPort > 65535 then some .sgRuleFromPortInvalid
    else if r.ToPort < 1 ∨ r.ToPort > 65535 then some .sgRuleToPortInvalid
    else validateRules rs

/-- Validate checks if all criteria are met (event.go lines 51-107).
`none` models a nil error. The rule-count guard repeats the source
verbatim: line 72 tests `len(Egress) < 1 && len(Egress) < 1`, i.e. the
Egress length twice and the Ingress length never. -/
def Event.Validate (ev : Event) : Option VErr :=
  if ev.DatacenterVPCID = "" then some .datacenterIDInvalid
  else if ev.DatacenterRegion = "" then some .datacenterRegionInvalid
  else if ev.DatacenterAccessKey = "" ∨ ev.DatacenterAccessToken = "" then
    some .datacenterCredentialsInvalid
  else if ev.SecurityGroupAWSID = "" then some .sgAWSIDInvalid
  else if ev.SecurityGroupName = "" then some .sgNameInvalid
  else if ev.SecurityGroupRules.Egress.length < 1 ∧
          ev.SecurityGroupRules.Egress.length < 1 then some .sgRulesInvalid
  else
    match validateRules ev.SecurityGroupRules.Ingress with
    | some e => some e
    | none => validateRules ev.SecurityGroupRules.Egress

/-- Modelled from the spec: the validator exactly as §4.1 words it, for
comparison with the source's `Event.Validate`. It differs only in rule 6,
which the spec states as "combined ingress+egress rule count ≥ 1". -/
def specValidate (ev : Event) : Option VErr :=
  if ev.DatacenterVPCID = "" then some .datacenterIDInvalid
  else if ev.DatacenterRegion = "" then some .datacenterRegionInvalid
  else if ev.DatacenterAccessKey = "" ∨ ev.DatacenterAccessToken = "" then
    some .datacenterCredentialsInvalid
  else if ev.SecurityGroupAWSID = "" then some .sgAWSIDInvalid
  else if ev.SecurityGroupName = "" then some .sgNameInvalid
  else if ev.SecurityGroupRules.Ingress.length +
          ev.SecurityGroupRules.Egress.length < 1 then some .sgRulesInvalid
  else
    match validateRules ev.SecurityGroupRules.Ingress with
    | some e => some e
    | none => validateRules ev.SecurityGroupRules.Egress

/-- Serialization of one rule, key order as in the struct tags of
event.go: ip, from_port, to_port, protocol. -/
def marshalRule (r : rule) : Json :=
  .obj [("ip", .str r.IP), ("from_port", .num r.FromPort),
        ("to_port", .num r.ToPort), ("protocol", .str r.Protocol)]

/-- Serialization of the security_group_rules sub-object. -/
def marshalSGRules (rs : SGRules) : Json :=
  .obj [("ingress", .arr (rs.Ingress.map marshalRule)),
        ("egress", .arr (rs.Egress.map marshalRule))]

/-- `json.Marshal` on an Event, field order and `omitempty` behaviour as
the struct tags of event.go dictate: `security_group_aws_id` and `error`
are omitted when empty. -/
def marshalEvent (ev : Event) : Json :=
  .obj ([("id", .str ev.ID),
         ("datacenter_vpc_id", .str ev.DatacenterVPCID),
         ("datacenter_region", .str ev.DatacenterRegion),
         ("datacenter_access_key", .str ev.DatacenterAccessKey),
         ("datacenter_access_token", .str ev.DatacenterAccessToken),
         ("network_aws_id", .str ev.NetworkAWSID)]
    ++ (if ev.SecurityGroupAWSID = "" then []
        else [("security_group_aws_id", .str ev.SecurityGroupAWSID)])
    ++ [("security_group_name", .str ev.SecurityGroupName),
        ("security_group_rules", marshalSGRules ev.SecurityGroupRules)]
    ++ (if ev.ErrorMessage = "" then []
        else [("error", .str ev.ErrorMessage)]))

/-- Field lookup in a decoded JSON object; as in `encoding/json`, a later
duplicate key overwrites an earlier one. -/
def getField : List (String × Json) → String → Option Json
  | [], _ => none
  | (k', j) :: fs, k =>
    match getField fs k with
    | some v => some v
    | none => if k' = k then some j else none

/-- Decoding a JSON value into a string field: a missing field or an
explicit null keeps the zero value, any non-string value is a type
error, as `json.Unmarshal` behaves on a fresh struct. -/
def decodeString : Option Json → Except String String
  | none => .ok ""
  | some .null => .ok ""
  | some (.str s) => .ok s
  | some _ => .error "json: cannot unmarshal value into field of type string"

/-- Decoding a JSON value into an int64 field. -/
def decodeInt : Option Json → Except String Int
  | none => .ok 0
  | some .null => .ok 0
  | some (.num n) => .ok n
  | some _ => .error "json: cannot unmarshal value into field of type int64"

/-- Decoding one element of an ingress/egress array into a rule. -/
def decodeRule : Json → Except String rule
  | .null => .ok ⟨"", 0, 0, ""⟩
  | .obj fs =>
    match decodeString (getField fs "ip") with
    | .error e => .error e
    | .ok ip =>
      match decodeInt (getField fs "from_port") with
      | .error e => .error e
      | .ok fp =>
        match decodeInt (getField fs "to_port") with
        | .error e => .error e
        | .ok tp =>
          match decodeString (getField fs "protocol") with
          | .error e => .error e
          | .ok pr => .ok ⟨ip, fp, tp, pr⟩
  | _ => .error "json: cannot unmarshal value into field of type rule"

/-- Decoding the elements of an ingress/egress array, first error wins. -/
def decodeRules : List Json → Except String (List rule)
  | [] => .ok []
  | j :: js =>
    match decodeRule j with
    | .error e => .error e
    | .ok r =>
      match decodeRules js with
      | .error e => .error e
      | .ok rs => .ok (r :: rs)

/-- Decoding a JSON value into a []rule field. -/
def decodeRuleList : Option Json → Except String (List rule)
  | none => .ok []
  | some .null => .ok []
  | some (.arr xs) => decodeRules xs
  | some _ => .error "json: cannot unmarshal value into field of type []rule"

/-- Decoding the security_group_rules sub-object. -/
def decodeSGRules : Option Json → Except String SGRules
  | none => .ok ⟨[], []⟩
  | some .null => .ok ⟨[], []⟩
  | some (.obj fs) =>
    match decodeRuleList (getField fs "ingress") with
    | .error e => .error e
    | .ok ing =>
      match decodeRuleList (getField fs "egress") with
      | .error e => .error e
      | .ok eg => .ok ⟨ing, eg⟩
  | some _ => .error "json: cannot unmarshal value into field of type struct"

/-- `json.Unmarshal` of a JSON value into a fresh Event: unknown keys are
ignored, missing keys keep the zero value, a top-level null is a no-op,
and any other non-object top-level value is a decode error. -/
def unmarshalEvent : Json → Except String Event
  | .null => .ok zeroEvent
  | .obj fs =>
    match decodeString (getField fs "id") with
    | .error e => .error e
    | .ok i =>
      match decodeString (getField fs "datacenter_vpc_id") with
      | .error e => .error e
      | .ok v =>
        match decodeString (getField fs "datacenter_region") with
        | .error e => .error e
        | .ok reg =>
          match decodeString (getField fs "datacenter_access_key") with
          | .error e => .error e
          | .ok k =>
            match decodeString (getField fs "datacenter_access_token") with
            | .error e => .error e
            | .ok t =>
              match decodeString (getField fs "network_aws_id") with
              | .error e => .error e
              | .ok n =>
                match decodeString (getField fs "security_group_aws_id") with
                | .error e => .error e
                | .ok sg =>
                  match decodeString (getField fs "security_group_name") with
                  | .error e => .error e
                  | .ok nm =>
                    match decodeSGRules (getField fs "security_group_rules") with
                    | .error e => .error e
                    | .ok rs =>
                      match decodeString (getField fs "error") with
                      | .error e => .error e
                      | .ok em => .ok ⟨i, v, reg, k, t, n, sg, nm, rs, em⟩
  | _ => .error "json: cannot unmarshal value into Go value of type main.Event"

/-- Full decode of raw inbound bytes: bytes that are not JSON text fail
outright, otherwise the value is unmarshalled into the Event schema. -/
def decodeEvent : RawData → Except String Event
  | none => .error "invalid character in JSON input"
  | some j => unmarshalEvent j

/-- A published message body: either the raw inbound bytes echoed
verbatim, a serialized JSON value, or the nil byte slice. -/
inductive Payload where
  | raw (r : RawData)
  | json (j : Json)
  | nil

/-- The done topic string of main.go / event.go. -/
def doneTopic : String := "firewall.delete.aws.done"

/-- The error topic string of main.go / event.go. -/
def errorTopic : String := "firewall.delete.aws.error"

/-- One `nc.Publish(topic, data)` call. -/
structure Pub where
  topic : String
  payload : Payload

/-- Number of publishes to the done topic in a run's publish list. -/
def doneCount (ps : List Pub) : Nat :=
  (ps.filter (fun p => p.topic == doneTopic)).length

/-- Number of publishes to the error topic in a run's publish list. -/
def errCount (ps : List Pub) : Nat :=
  (ps.filter (fun p => p.topic == errorTopic)).length

/-- Process the raw event (event.go lines 110-116): decode the bytes; on
failure publish the original raw bytes unchanged to the error topic and
return the decode error, on success return the populated Event and
publish nothing. -/
def Event.Process (raw : RawData) : Except String Event × List Pub :=
  match decodeEvent raw with
  | .error e => (.error e, [⟨errorTopic, .raw raw⟩])
  | .ok ev => (.ok ev, [])

/-- The assignment `ev.ErrorMessage = err.Error()` at the top of
Event.Error. -/
def recordError (ev : Event) (emsg : String) : Event :=
  { ev with ErrorMessage := emsg }

/-- Event.Error (event.go lines 119-128), generic over the marshaller so
that the `json.Marshal` failure branch is representable: records the
error message, marshals the full Event and publishes it to the error
topic; when marshalling fails, `log.Panic` aborts the process — modelled
as `none`, with no publish at all. -/
def Event.ErrorWith (m : Event → Except String Payload) (ev : Event)
    (emsg : String) : Option (Event × Pub) :=
  let ev2 := recordError ev emsg
  match m ev2 with
  | .error _ => none
  | .ok d => some (ev2, ⟨errorTopic, d⟩)

/-- Event.Complete (event.go lines 131-137), generic over the
marshaller. The source has no `return` after `ev.Error(err)`: when
marshalling fails it delegates to Error and then still executes
`nc.Publish("firewall.delete.aws.done", data)` with the nil `data`,
unless Error itself panicked. -/
def Event.CompleteWith (m : Event → Except String Payload) (ev : Event) :
    Option (List Pub) :=
  match m ev with
  | .ok d => some [⟨doneTopic, d⟩]
  | .error e =>
    match Event.ErrorWith m ev e with
    | none => none
    | some (_, p) => some [p, ⟨doneTopic, .nil⟩]

/-- The real marshaller of the program: `json.Marshal` on this schema of
strings, int64s and slices never fails. -/
def goMarshal (ev : Event) : Except String Payload :=
  .ok (.json (marshalEvent ev))

/-- eventHandler (main.go lines 23-43), generic over the marshaller and
over the outcome of the external `deleteFirewall` call (`none` =
success, `some e` = AWS error with message `e`): Process, stop on decode
failure; Validate, Error and stop on a validation error; deleteFirewall,
Error and stop on failure; otherwise Complete. `none` overall means the
process panicked mid-run. -/
def eventHandlerWith (m : Event → Except String Payload)
    (deleteFirewall : Event → Option String) (raw : RawData) :
    Option (List Pub) :=
  match (Event.Process raw).1 with
  | .error _ => some (Event.Process raw).2
  | .ok f =>
    match f.Validate with
    | some verr =>
      match Event.ErrorWith m f verr.message with
      | none => none
      | some (_, p) => some [p]
    | none =>
      match deleteFirewall f with
      | some e =>
        match Event.ErrorWith m f e with
        | none => none
        | some (_, p) => some [p]
      | none => Event.CompleteWith m f

/-- The handler as deployed, with the real total marshaller. -/
def eventHandler (deleteFirewall : Event → Option String) (raw : RawData) :
    Option (List Pub) :=
  eventHandlerWith goMarshal deleteFirewall raw

/-- True when the inbound bytes decode and the decoded Event passes
Validate: the runs whose Event may reach Complete. -/
def parsesAndValidates (raw : RawData) : Bool :=
  match decodeEvent raw with
  | .error _ => false
  | .ok f => f.Validate.isNone

/-- The per-rule loop of Validate in effect-tracking form: the receiver
Event and the publish list are threaded through every statement exactly
as the Go loop body executes, making visible that no branch assigns a
field or publishes. -/
def validateRulesRun : List rule → Event → List Pub →
    Option VErr × Event × List Pub
  | [], ev, ps => (none, ev, ps)
  | r :: rs, ev, ps =>
    if r.IP = "" then (some .sgRuleIPInvalid, ev, ps)
    else if r.Protocol = "" then (some .sgRuleProtocolInvalid, ev, ps)
    else if r.FromPort < 1 ∨ r.FromPort > 65535 then
      (some .sgRuleFromPortInvalid, ev, ps)
    else if r.ToPort < 1 ∨ r.ToPort > 65535 then
      (some .sgRuleToPortInvalid, ev, ps)
    else validateRulesRun rs ev ps

/-- Validate in effect-tracking form: every return statement of the Go
method yields the result together with the (untouched) receiver and the
(unextended) publish list. -/
def Event.ValidateRun (ev : Event) (ps : List Pub) :
    Option VErr × Event × List Pub :=
  if ev.DatacenterVPCID = "" then (some .datacenterIDInvalid, ev, ps)
  else if ev.DatacenterRegion = "" then (some .datacenterRegionInvalid, ev, ps)
  else if ev.DatacenterAccessKey = "" ∨ ev.DatacenterAccessToken = "" then
    (some .datacenterCredentialsInvalid, ev, ps)
  else if ev.SecurityGroupAWSID = "" then (some .sgAWSIDInvalid, ev, ps)
  else if ev.SecurityGroupName = "" then (some .sgNameInvalid, ev, ps)
  else if ev.SecurityGroupRules.Egress.length < 1 ∧
          ev.SecurityGroupRules.Egress.length < 1 then
    (some .sgRulesInvalid, ev, ps)
  else
    match validateRulesRun ev.SecurityGroupRules.Ingress ev ps with
    | (some e, ev2, ps2) => (some e, ev2, ps2)
    | (none, ev2, ps2) => validateRulesRun ev2.SecurityGroupRules.Egress ev2 ps2

/-- Field-for-field equality of two Events. -/
def eventFieldsEq (a b : Event) : Prop :=
  a.ID = b.ID ∧ a.DatacenterVPCID = b.DatacenterVPCID ∧
  a.DatacenterRegion = b.DatacenterRegion ∧
  a.DatacenterAccessKey = b.DatacenterAccessKey ∧
  a.DatacenterAccessToken = b.DatacenterAccessToken ∧
  a.NetworkAWSID = b.NetworkAWSID ∧
  a.SecurityGroupAWSID = b.SecurityGroupAWSID ∧
  a.SecurityGroupName = b.SecurityGroupName ∧
  a.SecurityGroupRules.Ingress = b.SecurityGroupRules.Ingress ∧
  a.SecurityGroupRules.Egress = b.SecurityGroupRules.Egress ∧
  a.ErrorMessage = b.ErrorMessage

/-- The ingress rule the repository's tests build. -/
def ingressRule : rule := ⟨"10.0.10.100/32", 80, 8080, "tcp"⟩

/-- The egress rule the repository's tests build. -/
def egressRule : rule := ⟨"8.8.8.8/32", 80, 8080, "tcp"⟩

/-- The valid test Event of the repository (testEvent with
buildTestRules applied). -/
def baseEvent : Event :=
  ⟨"test", "vpc-0000000", "eu-west-1", "key", "token", "",
   "sg-0000000", "test", ⟨[ingressRule], [egressRule]⟩, ""⟩

/-- baseEvent with one valid ingress rule and no egress rules: its
combined rule count is 1. -/
def ingressOnlyEvent : Event :=
  { baseEvent with SecurityGroupRules := ⟨[ingressRule], []⟩ }

/-- baseEvent with a single ingress rule whose ip is empty and no egress
rules: per the spec order the first violated rule is the per-rule ip
check. -/
def badIPIngressEvent : Event :=
  { baseEvent with SecurityGroupRules := ⟨[⟨"", 80, 8080, "tcp"⟩], []⟩ }

/-- A marshaller that fails exactly on Events with no recorded error
message: a concrete instance of a serialization failure inside Complete
whose inner Error call still serializes. -/
def badMarshal (ev : Event) : Except String Payload :=
  if ev.ErrorMessage = "" then .error "json: marshal failure"
  else .ok (.json (marshalEvent ev))

/-- A marshaller that always fails: a concrete instance of a
serialization failure inside Error itself. -/
def alwaysFailMarshal (_ : Event) : Except String Payload :=
  .error "json: marshal failure"

theorem decodeRule_marshalRule (r : rule) : decodeRule (marshalRule r) = .ok r := by
  obtain ⟨ip, fp, tp, pr⟩ := r
  rfl

theorem decodeRules_marshal (l : List rule) :
    decodeRules (l.map marshalRule) = .ok l := by
  induction l with
  | nil => rfl
  | cons r rs ih => simp only [List.map, decodeRules, decodeRule_marshalRule, ih]

theorem decodeSGRules_marshal (rs : SGRules) :
    decodeSGRules (some (marshalSGRules rs)) = .ok rs := by
  obtain ⟨ing, eg⟩ := rs
  simp only [marshalSGRules, decodeSGRules, getField, decodeRuleList,
    decodeRules_marshal]
  simp [decodeRules_marshal]

theorem unmarshal_marshal (ev : Event) :
    unmarshalEvent (marshalEvent ev) = .ok ev := by
  obtain ⟨i, v, reg, k, t, n, sg, nm, rs, em⟩ := ev
  by_cases hsg : sg = "" <;> by_cases hem : em = "" <;>
    simp [marshalEvent, unmarshalEvent, getField, decodeString,
      decodeSGRules_marshal, hsg, hem]

theorem validateRulesRun_eq (l : List rule) (ev : Event) (ps : List Pub) :
    validateRulesRun l ev ps = (validateRules l, ev, ps) := by
  induction l with
  | nil => rfl
  | cons r rs ih =>
    simp only [validateRulesRun, validateRules]
    split
    · rfl
    · split
      · rfl
      · split
        · rfl
        · split
          · rfl
          · exact ih

theorem eq_of_eventFieldsEq (a b : Event) (h : eventFieldsEq a b) : a = b := by
  obtain ⟨i, v, reg, k, t, n, sg, nm, ⟨ing, eg⟩, em⟩ := a
  obtain ⟨i', v', reg', k', t', n', sg', nm', ⟨ing', eg'⟩, em'⟩ := b
  obtain ⟨h1, h2, h3, h4, h5, h6, h7, h8, h9, h10, h11⟩ := h
  simp_all [eventFieldsEq]

theorem doneCount_error_pub (p : Payload) : doneCount [⟨errorTopic, p⟩] = 0 := rfl

theorem errCount_error_pub (p : Payload) : errCount [⟨errorTopic, p⟩] = 1 := rfl

theorem doneCount_done_pub (p : Payload) : doneCount [⟨doneTopic, p⟩] = 1 := rfl

theorem errCount_done_pub (p : Payload) : errCount [⟨doneTopic, p⟩] = 0 := rfl

/-- C1: the claim states the rule-count check of Validate fails exactly
when the combined ingress+egress count is zero, so an Event with one
ingress rule and no egress rules passes it. On the source it does not:
line 72 tests the Egress length twice and never the Ingress length, so
`ingressOnlyEvent` (combined count 1, every other check passing) is
rejected with the rules error, while the spec-worded validator accepts
it. -/
theorem validate_rule_count_checks_egress_twice :
    ingressOnlyEvent.SecurityGroupRules.Ingress.length +
      ingressOnlyEvent.SecurityGroupRules.Egress.length = 1 ∧
    ingressOnlyEvent.Validate = some VErr.sgRulesInvalid ∧
    specValidate ingressOnlyEvent = none :=
  ⟨rfl, rfl, rfl⟩

/-- C2: every handler run publishes exactly one message, to exactly one
of the done and error topics; and a run whose Event fails parsing or
validation never publishes to the done topic. -/
theorem handler_terminal_exclusivity (dfw : Event → Option String)
    (raw : RawData) :
    ∃ ps, eventHandler dfw raw = some ps ∧ ps.length = 1 ∧
      doneCount ps + errCount ps = 1 ∧
      (parsesAndValidates raw = false → doneCount ps = 0) := by
  cases hd : decodeEvent raw with
  | error e =>
    refine ⟨[⟨errorTopic, .raw raw⟩], ?_, rfl, rfl, fun _ => rfl⟩
    simp [eventHandler, eventHandlerWith, Event.Process, hd]
  | ok f =>
    cases hv : f.Validate with
    | some verr =>
      refine ⟨[⟨errorTopic, .json (marshalEvent (recordError f verr.message))⟩],
        ?_, rfl, rfl, fun _ => rfl⟩
      simp [eventHandler, eventHandlerWith, Event.Process, hd, hv,
        Event.ErrorWith, goMarshal]
    | none =>
      cases hdfw : dfw f with
      | some e2 =>
        refine ⟨[⟨errorTopic, .json (marshalEvent (recordError f e2))⟩],
          ?_, rfl, rfl, fun _ => rfl⟩
        simp [eventHandler, eventHandlerWith, Event.Process, hd, hv, hdfw,
          Event.ErrorWith, goMarshal]
      | none =>
        refine ⟨[⟨doneTopic, .json (marshalEvent f)⟩], ?_, rfl, rfl, ?_⟩
        · simp [eventHandler, eventHandlerWith, Event.Process, hd, hv, hdfw,
            Event.CompleteWith, goMarshal]
        · intro hcontra
          simp [parsesAndValidates, hd, hv] at hcontra

theorem handler_terminal_exclusivity_witness :
    ∃ ps, eventHandler (fun _ => none) none = some ps ∧ ps.length = 1 ∧
      doneCount ps + errCount ps = 1 ∧
      (parsesAndValidates none = false → doneCount ps = 0) :=
  handler_terminal_exclusivity (fun _ => none) none

/-- C3: the claim states that when serialization fails inside Complete,
the error topic receives a publish and the done topic receives none from
that call. On the source it does not: Complete has no return after
`ev.Error(err)`, so after the error publish it still executes
`nc.Publish("firewall.delete.aws.done", data)` with the nil data, and
the done topic receives one publish as well. -/
theorem complete_marshal_failure_also_publishes_done :
    Event.CompleteWith badMarshal zeroEvent =
      some [⟨errorTopic,
             .json (marshalEvent (recordError zeroEvent "json: marshal failure"))⟩,
            ⟨doneTopic, Payload.nil⟩] ∧
    doneCount [⟨errorTopic,
                .json (marshalEvent (recordError zeroEvent "json: marshal failure"))⟩,
               ⟨doneTopic, Payload.nil⟩] = 1 ∧
    errCount [⟨errorTopic,
               .json (marshalEvent (recordError zeroEvent "json: marshal failure"))⟩,
              ⟨doneTopic, Payload.nil⟩] = 1 :=
  ⟨rfl, rfl, rfl⟩

/-- C4: the claim states Validate returns the error of the first
violated rule of the spec's fixed sequence. On the source it does not
always: for an Event whose only violated rule is the per-rule ip check
(one ingress rule with empty ip, no egress rules, combined count 1),
the spec-worded first violation is the ip error, but the source's
Validate returns the rules-count error, because line 72 tests the
Egress length twice instead of the combined count. -/
theorem validate_order_diverges_from_spec :
    badIPIngressEvent.Validate = some VErr.sgRulesInvalid ∧
    specValidate badIPIngressEvent = some VErr.sgRuleIPInvalid :=
  ⟨rfl, rfl⟩

/-- C5: for every Event passing Validate, Process applied to its
serialization succeeds, reproduces the Event field for field, and
publishes nothing. -/
theorem process_serialize_roundtrip (ev : Event) (_valid : ev.Validate = none) :
    Event.Process (some (marshalEvent ev)) = (.ok ev, []) := by
  simp [Event.Process, decodeEvent, unmarshal_marshal]

theorem process_serialize_roundtrip_witness :
    Event.Process (some (marshalEvent baseEvent)) = (.ok baseEvent, []) :=
  process_serialize_roundtrip baseEvent rfl

/-- C6: Process on undecodable bytes publishes exactly those bytes to
the error topic and returns the decode error; on decodable bytes it
returns the populated Event and publishes nothing. -/
theorem process_decode_contract (raw : RawData) :
    (∀ e, decodeEvent raw = .error e →
      Event.Process raw = (.error e, [⟨errorTopic, Payload.raw raw⟩])) ∧
    (∀ f, decodeEvent raw = .ok f → Event.Process raw = (.ok f, [])) := by
  constructor
  · intro e he
    simp [Event.Process, he]
  · intro f hf
    simp [Event.Process, hf]

theorem process_decode_contract_witness :
    Event.Process none =
      (.error "invalid character in JSON input", [⟨errorTopic, Payload.raw none⟩]) ∧
    Event.Process (some (marshalEvent zeroEvent)) = (.ok zeroEvent, []) :=
  ⟨(process_decode_contract none).1 _ rfl,
   (process_decode_contract (some (marshalEvent zeroEvent))).2 zeroEvent rfl⟩

/-- C7: Error records the error's message into the errorMessage field
and emits the serialized full Event to the error topic; when
serialization fails inside Error the run is fatal — no publish of any
derived payload happens at all. -/
theorem error_records_and_emits (m : Event → Except String Payload)
    (ev : Event) (emsg : String) :
    (recordError ev emsg).ErrorMessage = emsg ∧
    (∀ d, m (recordError ev emsg) = .ok d →
      Event.ErrorWith m ev emsg = some (recordError ev emsg, ⟨errorTopic, d⟩)) ∧
    (∀ e, m (recordError ev emsg) = .error e →
      Event.ErrorWith m ev emsg = none) := by
  refine ⟨rfl, ?_, ?_⟩
  · intro d hd
    simp [Event.ErrorWith, hd]
  · intro e he
    simp [Event.ErrorWith, he]

theorem error_records_and_emits_witness :
    (recordError zeroEvent "boom").ErrorMessage = "boom" ∧
    Event.ErrorWith goMarshal zeroEvent "boom" =
      some (recordError zeroEvent "boom",
            ⟨errorTopic, .json (marshalEvent (recordError zeroEvent "boom"))⟩) ∧
    Event.ErrorWith alwaysFailMarshal zeroEvent "boom" = none :=
  ⟨(error_records_and_emits goMarshal zeroEvent "boom").1,
   (error_records_and_emits goMarshal zeroEvent "boom").2.1 _ rfl,
   (error_records_and_emits alwaysFailMarshal zeroEvent "boom").2.2 _ rfl⟩

/-- C8 counterexample: the claim states errorMessage is present and
non-empty after Error has been invoked with any error; but Error copies
the error's message verbatim, so invoking it with an error whose message
is the empty string leaves errorMessage empty. -/
theorem error_empty_message_counterexample :
    Event.ErrorWith goMarshal zeroEvent "" =
      some (recordError zeroEvent "",
            ⟨errorTopic, .json (marshalEvent (recordError zeroEvent ""))⟩) ∧
    (recordError zeroEvent "").ErrorMessage = "" :=
  ⟨rfl, rfl⟩

/-- C8 amended: errorMessage is empty on a freshly constructed Event,
and after Error(err) it equals err's message — hence non-empty whenever
err's message is non-empty, as it is for every error this system
records. -/
theorem errorMessage_lifecycle (m : Event → Except String Payload)
    (ev : Event) (emsg : String) (h : emsg ≠ "") :
    zeroEvent.ErrorMessage = "" ∧
    ∀ ev2 p, Event.ErrorWith m ev emsg = some (ev2, p) →
      ev2.ErrorMessage = emsg ∧ ev2.ErrorMessage ≠ "" := by
  refine ⟨rfl, ?_⟩
  intro ev2 p hp
  simp only [Event.ErrorWith] at hp
  cases hm : m (recordError ev emsg) <;> rw [hm] at hp <;> simp at hp
  obtain ⟨hev, -⟩ := hp
  subst hev
  exact ⟨rfl, h⟩

theorem errorMessage_lifecycle_witness :
    zeroEvent.ErrorMessage = "" ∧
    ∀ ev2 p, Event.ErrorWith goMarshal zeroEvent "boom" = some (ev2, p) →
      ev2.ErrorMessage = "boom" ∧ ev2.ErrorMessage ≠ "" :=
  errorMessage_lifecycle goMarshal zeroEvent "boom" (by decide)

/-- C9: Validate is pure — the effect-tracking run returns the result
of the pure function together with the receiver unchanged and the
publish list unextended, and two Events with equal field values
validate identically. -/
theorem validate_pure_frame (ev : Event) (ps : List Pub) :
    ev.ValidateRun ps = (ev.Validate, ev, ps) ∧
    (∀ ev2, eventFieldsEq ev ev2 → ev2.Validate = ev.Validate) := by
  constructor
  · unfold Event.ValidateRun Event.Validate
    split_ifs <;> try rfl
    rw [validateRulesRun_eq]
    cases hI : validateRules ev.SecurityGroupRules.Ingress <;>
      simp [hI, validateRulesRun_eq]
  · intro ev2 h
    rw [show ev2 = ev from (eq_of_eventFieldsEq ev ev2 h).symm]

theorem validate_pure_frame_witness :
    Event.ValidateRun baseEvent [] = (baseEvent.Validate, baseEvent, []) ∧
    baseEvent.Validate = baseEvent.Validate :=
  ⟨(validate_pure_frame baseEvent []).1,
   (validate_pure_frame baseEvent []).2 baseEvent
     ⟨rfl, rfl, rfl, rfl, rfl, rfl, rfl, rfl, rfl, rfl, rfl⟩⟩

/-- C10: the result of Validate does not depend on the correlation id,
the informational network id, or a previously recorded error message —
two Events agreeing on all other fields validate identically. -/
theorem validate_ignores_metadata (ev : Event) (i n e : String) :
    ({ev with ID := i, NetworkAWSID := n, ErrorMessage := e} : Event).Validate
      = ev.Validate := by
  cases ev
  rfl

